import Mathlib

/-!
Verification development for the `mathtoolbox` RBF scattered-data interpolation core
(`include/mathtoolbox/rbf-interpolation.hpp`).

The development has three layers:

1. an IEEE-style floating-point *value* model `Fp` (finite values idealized as exact
   reals, plus the two infinities and NaN), used to settle the claims about the
   thin-plate-spline kernel's behaviour at `r = 0` and on NaN inputs, where the
   double-precision special values are the whole point;
2. real-number models of the four kernel variants exactly as written in the header;
3. a real-number model of the interpolator (Gram matrix, weight solve, evaluation)
   and of its state machine.  The header only declares `SetData` / `CalcWeights` /
   `CalcValue`; their bodies live in a translation unit that is not part of the
   sources, so those bodies are modelled from the specification (see the individual
   doc comments), while everything the header itself fixes (signatures, constness,
   the kernel bodies, `CalcRbfValue`'s contract comment) is taken from the source.
-/

set_option maxHeartbeats 1000000

open Matrix

/-- Model of an IEEE double value: a finite value (idealized as an exact real
number), one of the two infinities, or NaN.  Rounding is irrelevant to the claims
settled on this model (they only concern exact zeros, infinities and NaN
propagation), so finite values carry exact reals. -/
inductive Fp where
  | num (x : ℝ)
  | posInf
  | negInf
  | nan

/-- Test for NaN, modelling `std::isnan`. -/
def Fp.isNaN : Fp → Bool
  | nan => true
  | _ => false

/-- IEEE multiplication on the value model: NaN propagates, `0 * ±∞ = NaN`,
otherwise infinities combine with the usual sign rules and finite values multiply
exactly. -/
noncomputable def Fp.mul : Fp → Fp → Fp
  | nan, _ => nan
  | _, nan => nan
  | num x, num y => num (x * y)
  | num x, posInf => if x = 0 then nan else if 0 < x then posInf else negInf
  | num x, negInf => if x = 0 then nan else if 0 < x then negInf else posInf
  | posInf, num x => if x = 0 then nan else if 0 < x then posInf else negInf
  | negInf, num x => if x = 0 then nan else if 0 < x then negInf else posInf
  | posInf, posInf => posInf
  | posInf, negInf => negInf
  | negInf, posInf => negInf
  | negInf, negInf => posInf

/-- IEEE natural logarithm on the value model, modelling `std::log`:
`log 0 = -∞`, negative arguments and NaN give NaN, `log ∞ = ∞`, and positive
finite values give the exact real logarithm. -/
noncomputable def Fp.log : Fp → Fp
  | num x => if x = 0 then negInf else if x < 0 then nan else num (Real.log x)
  | posInf => posInf
  | negInf => nan
  | nan => nan

/-- IEEE comparison `a >= b`, modelling the C++ `>=` on doubles: any comparison
with a NaN operand is false. -/
noncomputable def Fp.ge : Fp → Fp → Bool
  | nan, _ => false
  | _, nan => false
  | num x, num y => decide (y ≤ x)
  | posInf, _ => true
  | negInf, negInf => true
  | negInf, _ => false
  | num _, negInf => true
  | num _, posInf => false

/-- Raw thin-plate-spline value `r * r * std::log(r)` (left associated, as in the
source), before the NaN guard. -/
noncomputable def ThinPlateSplineRbfKernel.rawValue (r : Fp) : Fp :=
  (r.mul r).mul (Fp.log r)

/-- Floating-point model of `ThinPlateSplineRbfKernel::EvaluateValue`:
`const double value = r * r * std::log(r); return std::isnan(value) ? 0.0 : value;`. -/
noncomputable def ThinPlateSplineRbfKernel.EvaluateValue (r : Fp) : Fp :=
  let value := ThinPlateSplineRbfKernel.rawValue r
  if value.isNaN then Fp.num 0 else value

/-- Condition of the source's `assert(r >= 0.0)` in the thin-plate-spline kernel,
read on the floating-point value model (false for NaN). -/
noncomputable def ThinPlateSplineRbfKernel.assertCond (r : Fp) : Bool :=
  r.ge (Fp.num 0)

/-- The Gaussian kernel variant: the class holds the shape parameter `m_theta`. -/
structure GaussianRbfKernel where
  m_theta : ℝ

/-- Real-number model of `GaussianRbfKernel::EvaluateValue`:
`return std::exp(-m_theta * r * r);`. -/
noncomputable def GaussianRbfKernel.EvaluateValue (k : GaussianRbfKernel) (r : ℝ) : ℝ :=
  Real.exp (-k.m_theta * r * r)

/-- Condition of the source's `assert(r >= 0.0)` in the Gaussian kernel. -/
def GaussianRbfKernel.assertCond (_k : GaussianRbfKernel) (r : ℝ) : Prop :=
  0 ≤ r

/-- Real-number model of the thin-plate-spline kernel value used inside the
interpolator: `r * r * log r` with the `r = 0` singularity evaluating to `0`
(in Mathlib `Real.log 0 = 0`, which agrees with the source's NaN guard
substituting `0.0` there). -/
noncomputable def ThinPlateSplineRbfKernel.evalReal (r : ℝ) : ℝ :=
  r * r * Real.log r

/-- The linear kernel variant (no shape parameter). -/
structure LinearRbfKernel

/-- Real-number model of `LinearRbfKernel::EvaluateValue`:
`return std::abs(r);`.  Note the source has no assertion here, so the function is
total over all reals. -/
noncomputable def LinearRbfKernel.EvaluateValue (_k : LinearRbfKernel) (r : ℝ) : ℝ :=
  |r|

/-- The inverse-quadratic kernel variant: the class holds the shape parameter
`m_theta`. -/
structure InverseQuadraticRbfKernel where
  m_theta : ℝ

/-- Real-number model of `InverseQuadraticRbfKernel::EvaluateValue`:
`return 1.0 / std::sqrt(r * r + m_theta * m_theta);`. -/
noncomputable def InverseQuadraticRbfKernel.EvaluateValue
    (k : InverseQuadraticRbfKernel) (r : ℝ) : ℝ :=
  1 / Real.sqrt (r * r + k.m_theta * k.m_theta)

/-- Euclidean norm of a `d`-dimensional vector, modelling Eigen's `.norm()`. -/
noncomputable def euclidNorm {d : ℕ} (v : Fin d → ℝ) : ℝ :=
  Real.sqrt (∑ k, v k ^ 2)

/-- Column `i` of the data matrix `m_X`, i.e. the `i`-th stored point. -/
def point {d n : ℕ} (X : Matrix (Fin d) (Fin n) ℝ) (i : Fin n) : Fin d → ℝ :=
  fun k => X k i

/-- Model of `RbfInterpolator::CalcRbfValue(xi, xj)`, whose contract in the header
reads `Returns f(||xj - xi||)`: the kernel evaluated on the Euclidean distance
between the two points. -/
noncomputable def CalcRbfValue {d : ℕ} (φ : ℝ → ℝ) (xi xj : Fin d → ℝ) : ℝ :=
  φ (euclidNorm (xj - xi))

/-- Modelled from the spec: the `n × n` Gram matrix `Φ` built by `CalcWeights`
(whose body is not among the sources), with `Φ[i][j] = kernel(‖x_j − x_i‖)`,
each entry produced by `CalcRbfValue` on the stored points `i` and `j`. -/
noncomputable def gramMatrix {d n : ℕ} (φ : ℝ → ℝ) (X : Matrix (Fin d) (Fin n) ℝ) :
    Matrix (Fin n) (Fin n) ℝ :=
  Matrix.of fun i j => CalcRbfValue φ (point X i) (point X j)

/-- Modelled from the spec: the weight solve of `CalcWeights` (whose body is not
among the sources).  With `use_regularization` false it solves `Φ w = y`, with it
true it solves the ridge system `(Φ + λ I) w = y`; a singular system is a fit
failure, reported here as `none`. -/
noncomputable def CalcWeightsVec {d n : ℕ} (φ : ℝ → ℝ) (X : Matrix (Fin d) (Fin n) ℝ)
    (y : Fin n → ℝ) (use_regularization : Bool) (lambda : ℝ) : Option (Fin n → ℝ) :=
  let Phi := gramMatrix φ X
  let A := if use_regularization then Phi + lambda • (1 : Matrix (Fin n) (Fin n) ℝ) else Phi
  if A.det = 0 then none else some (A⁻¹ *ᵥ y)

/-- Modelled from the spec: the evaluation `CalcValue(x)` (whose body is not among
the sources; the header declares it `const`): `f(x) = Σ_i w_i · kernel(‖x − x_i‖)`. -/
noncomputable def CalcValue {d n : ℕ} (φ : ℝ → ℝ) (X : Matrix (Fin d) (Fin n) ℝ)
    (w : Fin n → ℝ) (x : Fin d → ℝ) : ℝ :=
  ∑ i, w i * φ (euclidNorm (x - point X i))

/-- Residual sum of squares between the fitted values `CalcValue(x_i)` and the
stored targets `y_i`. -/
noncomputable def residualSumOfSquares {d n : ℕ} (φ : ℝ → ℝ)
    (X : Matrix (Fin d) (Fin n) ℝ) (y : Fin n → ℝ) (w : Fin n → ℝ) : ℝ :=
  ∑ i, (CalcValue φ X w (point X i) - y i) ^ 2

/-- Data set held by the interpolator: `n` points in `d` dimensions (the columns
of `m_X`) and one target per point (`m_y`). -/
structure DataSet (d : ℕ) where
  n : ℕ
  X : Matrix (Fin d) (Fin n) ℝ
  y : Fin n → ℝ

/-- Modelled from the spec: the interpolator's lifecycle states
`Uninitialized → DataLoaded → Fitted` (the header's private members `m_X`, `m_y`,
`m_w` carry the data and, once fitted, the weights). -/
inductive InterpState (d : ℕ) where
  | uninitialized : InterpState d
  | dataLoaded : DataSet d → InterpState d
  | fitted : (data : DataSet d) → (Fin data.n → ℝ) → InterpState d

/-- Modelled from the spec: `RbfInterpolator::SetData(X, y)` (whose body is not
among the sources).  A value vector whose length differs from the number of
columns of `X` is a dimension-mismatch usage error, reported as `none`; otherwise
the previous state is discarded and exactly the supplied data is stored. -/
def SetData {d n m : ℕ} (_s : InterpState d) (X : Matrix (Fin d) (Fin n) ℝ)
    (y : Fin m → ℝ) : Option (InterpState d) :=
  if h : m = n then
    some (InterpState.dataLoaded ⟨n, X, fun i => y (Fin.cast h.symm i)⟩)
  else
    none

/-- Modelled from the spec: `RbfInterpolator::CalcWeights(use_regularization,
lambda)` on the state machine (the body is not among the sources; the spec has it
return success/failure).  On success the state becomes `fitted` with the solved
weights; on a singular system the weights are not touched and the state is left
where it was. -/
noncomputable def CalcWeightsOp {d : ℕ} (φ : ℝ → ℝ) (s : InterpState d)
    (use_regularization : Bool) (lambda : ℝ) : Bool × InterpState d :=
  match s with
  | .uninitialized => (false, .uninitialized)
  | .dataLoaded data =>
      match CalcWeightsVec φ data.X data.y use_regularization lambda with
      | some w => (true, .fitted data w)
      | none => (false, .dataLoaded data)
  | .fitted data w₀ =>
      match CalcWeightsVec φ data.X data.y use_regularization lambda with
      | some w => (true, .fitted data w)
      | none => (false, .fitted data w₀)

/-- Model of `RbfInterpolator::CalcValue(x)` on the state machine.  The header
declares the method `const`, so the state after the call is the state before it;
calling it outside the `fitted` state is a usage error, reported as `none`. -/
noncomputable def CalcValueOp {d : ℕ} (φ : ℝ → ℝ) (s : InterpState d) (x : Fin d → ℝ) :
    Option ℝ × InterpState d :=
  match s with
  | .fitted data w => (some (CalcValue φ data.X w x), .fitted data w)
  | s => (none, s)

/-- Successive evaluations: run `CalcValueOp` on each query in turn, threading the
state. -/
noncomputable def CalcValueList {d : ℕ} (φ : ℝ → ℝ) (s : InterpState d) :
    List (Fin d → ℝ) → List (Option ℝ) × InterpState d
  | [] => ([], s)
  | x :: xs =>
      let r := CalcValueOp φ s x
      let rest := CalcValueList φ r.2 xs
      (r.1 :: rest.1, rest.2)

theorem euclidNorm_neg {d : ℕ} (v : Fin d → ℝ) : euclidNorm (-v) = euclidNorm v := by
  simp [euclidNorm]

theorem euclidNorm_sub_symm {d : ℕ} (u v : Fin d → ℝ) :
    euclidNorm (u - v) = euclidNorm (v - u) := by
  rw [← neg_sub v u, euclidNorm_neg]

theorem euclidNorm_zero {d : ℕ} : euclidNorm (0 : Fin d → ℝ) = 0 := by
  simp [euclidNorm]

theorem gramMatrix_apply {d n : ℕ} (φ : ℝ → ℝ) (X : Matrix (Fin d) (Fin n) ℝ)
    (i j : Fin n) : gramMatrix φ X i j = φ (euclidNorm (point X j - point X i)) := rfl

theorem CalcValue_at_point {d n : ℕ} (φ : ℝ → ℝ) (X : Matrix (Fin d) (Fin n) ℝ)
    (w : Fin n → ℝ) (j : Fin n) :
    CalcValue φ X w (point X j) = (gramMatrix φ X *ᵥ w) j := by
  unfold CalcValue Matrix.mulVec Matrix.dotProduct
  refine Finset.sum_congr rfl fun i _ => ?_
  show w i * φ (euclidNorm (point X j - point X i)) = gramMatrix φ X j i * w i
  rw [gramMatrix_apply, euclidNorm_sub_symm, mul_comm]

theorem dotProduct_self_nonneg {n : ℕ} (v : Fin n → ℝ) : 0 ≤ v ⬝ᵥ v :=
  Finset.sum_nonneg fun i _ => mul_self_nonneg (v i)

theorem shifted_mul_comm {n : ℕ} (M : Matrix (Fin n) (Fin n) ℝ) (a b : ℝ) :
    (M + a • 1) * (M + b • 1) = (M + b • 1) * (M + a • 1) := by
  simp only [add_mul, mul_add, Matrix.smul_mul, Matrix.mul_smul, mul_one, one_mul,
    smul_smul, mul_comm a b]
  abel

theorem CalcWeightsVec_false_iff {d n : ℕ} (φ : ℝ → ℝ) (X : Matrix (Fin d) (Fin n) ℝ)
    (y : Fin n → ℝ) (lambda : ℝ) (w : Fin n → ℝ) :
    CalcWeightsVec φ X y false lambda = some w ↔
      (gramMatrix φ X).det ≠ 0 ∧ w = (gramMatrix φ X)⁻¹ *ᵥ y := by
  constructor
  · intro h
    by_cases hd : (gramMatrix φ X).det = 0
    · simp [CalcWeightsVec, hd] at h
    · simp [CalcWeightsVec, hd] at h
      exact ⟨hd, h.symm⟩
  · rintro ⟨hd, rfl⟩
    simp [CalcWeightsVec, hd]

theorem CalcWeightsVec_true_iff {d n : ℕ} (φ : ℝ → ℝ) (X : Matrix (Fin d) (Fin n) ℝ)
    (y : Fin n → ℝ) (lambda : ℝ) (w : Fin n → ℝ) :
    CalcWeightsVec φ X y true lambda = some w ↔
      (gramMatrix φ X + lambda • 1).det ≠ 0 ∧ w = (gramMatrix φ X + lambda • 1)⁻¹ *ᵥ y := by
  constructor
  · intro h
    by_cases hd : (gramMatrix φ X + lambda • (1 : Matrix (Fin n) (Fin n) ℝ)).det = 0
    · simp [CalcWeightsVec, hd] at h
    · simp [CalcWeightsVec, hd] at h
      exact ⟨hd, h.symm⟩
  · rintro ⟨hd, rfl⟩
    simp [CalcWeightsVec, hd]

/-- Claim C1: for every kernel, with `use_regularization = false` and a
well-conditioned point set (the non-regularized solve succeeds, i.e. the Gram
matrix is nonsingular), the fitted function passes through every supplied data
point: `CalcValue(x_i) = y_i` for every stored point `i` (exactly, in the
real-number model). -/
theorem claim_c1 {d n : ℕ} (φ : ℝ → ℝ) (X : Matrix (Fin d) (Fin n) ℝ) (y : Fin n → ℝ)
    (lambda : ℝ) (w : Fin n → ℝ)
    (h : CalcWeightsVec φ X y false lambda = some w) (i : Fin n) :
    CalcValue φ X w (point X i) = y i := by
  obtain ⟨hd, rfl⟩ := (CalcWeightsVec_false_iff φ X y lambda w).1 h
  rw [CalcValue_at_point, Matrix.mulVec_mulVec,
    Matrix.mul_nonsing_inv _ (isUnit_iff_ne_zero.2 hd), Matrix.one_mulVec]

/-- Witness for claim C1: one Gaussian-kernel point at the origin with target 5;
the solve succeeds and the fit reproduces the target exactly. -/
theorem claim_c1_witness :
    CalcWeightsVec (GaussianRbfKernel.EvaluateValue ⟨1⟩)
        (Matrix.of fun _ _ => (0 : ℝ) : Matrix (Fin 1) (Fin 1) ℝ) (fun _ => 5) false (1 / 1000) =
      some ((gramMatrix (GaussianRbfKernel.EvaluateValue ⟨1⟩)
        (Matrix.of fun _ _ => (0 : ℝ) : Matrix (Fin 1) (Fin 1) ℝ))⁻¹ *ᵥ fun _ => 5) ∧
    CalcValue (GaussianRbfKernel.EvaluateValue ⟨1⟩)
        (Matrix.of fun _ _ => (0 : ℝ) : Matrix (Fin 1) (Fin 1) ℝ)
        ((gramMatrix (GaussianRbfKernel.EvaluateValue ⟨1⟩)
          (Matrix.of fun _ _ => (0 : ℝ) : Matrix (Fin 1) (Fin 1) ℝ))⁻¹ *ᵥ fun _ => 5)
        (point (Matrix.of fun _ _ => (0 : ℝ) : Matrix (Fin 1) (Fin 1) ℝ) 0) = 5 := by
  have hdet : (gramMatrix (GaussianRbfKernel.EvaluateValue ⟨1⟩)
      (Matrix.of fun _ _ => (0 : ℝ) : Matrix (Fin 1) (Fin 1) ℝ)).det ≠ 0 := by
    rw [Matrix.det_fin_one]
    simp [gramMatrix, CalcRbfValue, point, euclidNorm, GaussianRbfKernel.EvaluateValue]
  have hsolve : CalcWeightsVec (GaussianRbfKernel.EvaluateValue ⟨1⟩)
      (Matrix.of fun _ _ => (0 : ℝ) : Matrix (Fin 1) (Fin 1) ℝ) (fun _ => 5) false (1 / 1000) =
      some ((gramMatrix (GaussianRbfKernel.EvaluateValue ⟨1⟩)
        (Matrix.of fun _ _ => (0 : ℝ) : Matrix (Fin 1) (Fin 1) ℝ))⁻¹ *ᵥ fun _ => 5) :=
    (CalcWeightsVec_false_iff _ _ _ _ _).2 ⟨hdet, rfl⟩
  exact ⟨hsolve, claim_c1 _ _ _ _ _ hsolve 0⟩

/-- Claim C2: `ThinPlateSplineRbfKernel::EvaluateValue(0.0)` returns exactly `0.0`
and never NaN: the raw floating-point value `r*r*log(r)` at `r = 0` is NaN
(`0 · (-∞)`), the kernel detects this with `isnan` and substitutes `0.0`. -/
theorem claim_c2 :
    ThinPlateSplineRbfKernel.EvaluateValue (Fp.num 0) = Fp.num 0 ∧
    (ThinPlateSplineRbfKernel.EvaluateValue (Fp.num 0)).isNaN = false ∧
    (ThinPlateSplineRbfKernel.rawValue (Fp.num 0)).isNaN = true := by
  have hraw : ThinPlateSplineRbfKernel.rawValue (Fp.num 0) = Fp.nan := by
    simp [ThinPlateSplineRbfKernel.rawValue, Fp.mul, Fp.log]
  refine ⟨?_, ?_, ?_⟩ <;>
    simp [ThinPlateSplineRbfKernel.EvaluateValue, hraw, Fp.isNaN]

/-- Counterexample to claim C3: on the NaN input itself the raw kernel value is
NaN, so the `isnan` guard fires and the kernel *does* substitute `0.0` — the
guard masks a genuine NaN input rather than being scoped to the `r = 0`
singularity. -/
theorem claim_c3_counterexample :
    ThinPlateSplineRbfKernel.rawValue Fp.nan = Fp.nan ∧
    ThinPlateSplineRbfKernel.EvaluateValue Fp.nan = Fp.num 0 := by
  constructor
  · rfl
  · simp [ThinPlateSplineRbfKernel.EvaluateValue, ThinPlateSplineRbfKernel.rawValue,
      Fp.mul, Fp.isNaN]

/-- Claim C3 (amended): the NaN-to-`0.0` substitution tests the kernel's own
output, so it cannot distinguish the `r = 0` singularity from a NaN input: a NaN
input also produces the substituted value `0.0`.  What rejects NaN inputs is the
`assert(r >= 0.0)` precondition (active in debug builds only), which a NaN input
fails while `r = 0` passes it. -/
theorem claim_c3_amended :
    ThinPlateSplineRbfKernel.EvaluateValue Fp.nan = Fp.num 0 ∧
    ThinPlateSplineRbfKernel.assertCond Fp.nan = false ∧
    ThinPlateSplineRbfKernel.assertCond (Fp.num 0) = true := by
  refine ⟨?_, rfl, ?_⟩
  · simp [ThinPlateSplineRbfKernel.EvaluateValue, ThinPlateSplineRbfKernel.rawValue,
      Fp.mul, Fp.isNaN]
  · simp [ThinPlateSplineRbfKernel.assertCond, Fp.ge]

/-- Claim C5: `SetData` with a value vector whose length differs from the number
of points is a dimension-mismatch usage error, reported as an error (`none`) and
never silently truncated or padded. -/
theorem claim_c5 {d n m : ℕ} (s : InterpState d) (X : Matrix (Fin d) (Fin n) ℝ)
    (y : Fin m → ℝ) (h : m ≠ n) : SetData s X y = none := by
  simp [SetData, h]

/-- Witness for claim C5: a two-column point matrix with a length-one value
vector is rejected. -/
theorem claim_c5_witness :
    SetData (InterpState.uninitialized : InterpState 1)
      (Matrix.of fun _ _ => (0 : ℝ) : Matrix (Fin 1) (Fin 2) ℝ) (![3] : Fin 1 → ℝ) = none :=
  claim_c5 _ _ _ (by decide)

/-- Claim C7: the Gram matrix is symmetric — `Φ[i][j] = Φ[j][i]` for every pair of
stored points, because each entry is the kernel of the Euclidean distance, which
is symmetric in its arguments — and every diagonal entry equals `kernel(0)`. -/
theorem claim_c7 {d n : ℕ} (φ : ℝ → ℝ) (X : Matrix (Fin d) (Fin n) ℝ) (i j : Fin n) :
    gramMatrix φ X i j = gramMatrix φ X j i ∧ gramMatrix φ X i i = φ 0 := by
  constructor
  · rw [gramMatrix_apply, gramMatrix_apply, euclidNorm_sub_symm]
  · rw [gramMatrix_apply, sub_self, euclidNorm_zero]

/-- Claim C9: `LinearRbfKernel::EvaluateValue` is total over all real inputs (the
source has no `assert(r >= 0.0)` here, unlike the Gaussian and thin-plate-spline
kernels) and returns `|r|`, so it is even: `EvaluateValue(-r) = EvaluateValue(r)`
for every real `r`. -/
theorem claim_c9 (k : LinearRbfKernel) (r : ℝ) :
    k.EvaluateValue r = |r| ∧ k.EvaluateValue (-r) = k.EvaluateValue r :=
  ⟨rfl, by simp [LinearRbfKernel.EvaluateValue]⟩

theorem CalcValueOp_snd {d : ℕ} (φ : ℝ → ℝ) (s : InterpState d) (x : Fin d → ℝ) :
    (CalcValueOp φ s x).2 = s := by
  cases s <;> rfl

theorem CalcValueList_spec {d : ℕ} (φ : ℝ → ℝ) (s : InterpState d)
    (xs : List (Fin d → ℝ)) :
    (CalcValueList φ s xs).2 = s ∧
      (CalcValueList φ s xs).1 = xs.map fun x => (CalcValueOp φ s x).1 := by
  induction xs with
  | nil => exact ⟨rfl, rfl⟩
  | cons x xs ih =>
      constructor
      · show (CalcValueList φ (CalcValueOp φ s x).2 xs).2 = s
        rw [CalcValueOp_snd]
        exact ih.1
      · show (CalcValueOp φ s x).1 :: (CalcValueList φ (CalcValueOp φ s x).2 xs).1 = _
        rw [CalcValueOp_snd, List.map_cons, ih.2]

/-- Claim C10: `CalcValue` is read-only (the header declares it `const`): an
evaluation leaves the interpolator state — stored points, targets and weights —
unchanged, so any sequence of evaluations after one successful fit leaves the
state fixed, each result is computed against the original state, and in the
fitted state the result is the weighted kernel sum over the stored data. -/
theorem claim_c10 {d : ℕ} (φ : ℝ → ℝ) (s : InterpState d) (xs : List (Fin d → ℝ)) :
    ((CalcValueList φ s xs).2 = s ∧
      (CalcValueList φ s xs).1 = xs.map fun x => (CalcValueOp φ s x).1) ∧
    ∀ (data : DataSet d) (w : Fin data.n → ℝ) (x : Fin d → ℝ),
      CalcValueOp φ (InterpState.fitted data w) x =
        (some (CalcValue φ data.X w x), InterpState.fitted data w) :=
  ⟨CalcValueList_spec φ s xs, fun _ _ _ => rfl⟩

/-- Claim C8: the pipeline is deterministic — two fits with identical kernel,
data and flags produce identical weights, identical evaluations at every query
point, and every kernel evaluation is a pure function of `r` and the shape
parameters (stated here for the two parametrized kernel classes). -/
theorem claim_c8 {d n : ℕ} (φ₁ φ₂ : ℝ → ℝ) (X₁ X₂ : Matrix (Fin d) (Fin n) ℝ)
    (y₁ y₂ : Fin n → ℝ) (use_regularization : Bool) (lambda : ℝ)
    (hφ : φ₁ = φ₂) (hX : X₁ = X₂) (hy : y₁ = y₂) :
    CalcWeightsVec φ₁ X₁ y₁ use_regularization lambda =
      CalcWeightsVec φ₂ X₂ y₂ use_regularization lambda ∧
    (∀ (w : Fin n → ℝ) (x : Fin d → ℝ), CalcValue φ₁ X₁ w x = CalcValue φ₂ X₂ w x) ∧
    (∀ (k₁ k₂ : GaussianRbfKernel) (r₁ r₂ : ℝ), k₁.m_theta = k₂.m_theta → r₁ = r₂ →
      k₁.EvaluateValue r₁ = k₂.EvaluateValue r₂) ∧
    (∀ (k₁ k₂ : InverseQuadraticRbfKernel) (r₁ r₂ : ℝ), k₁.m_theta = k₂.m_theta → r₁ = r₂ →
      k₁.EvaluateValue r₁ = k₂.EvaluateValue r₂) := by
  subst hφ; subst hX; subst hy
  refine ⟨rfl, fun _ _ => rfl, fun k₁ k₂ r₁ r₂ hk hr => ?_, fun k₁ k₂ r₁ r₂ hk hr => ?_⟩
  · rw [GaussianRbfKernel.EvaluateValue, GaussianRbfKernel.EvaluateValue, hk, hr]
  · rw [InverseQuadraticRbfKernel.EvaluateValue, InverseQuadraticRbfKernel.EvaluateValue,
      hk, hr]

/-- Witness for claim C8: two textually identical linear-kernel fits of the same
two-point data set agree, and the parametrized kernels are pure at concrete
arguments. -/
theorem claim_c8_witness :
    CalcWeightsVec (LinearRbfKernel.EvaluateValue {}) !![(0 : ℝ), 1] ![2, 3] false (1 / 1000) =
      CalcWeightsVec (LinearRbfKernel.EvaluateValue {}) !![(0 : ℝ), 1] ![2, 3] false (1 / 1000) ∧
    (∀ (w : Fin 2 → ℝ) (x : Fin 1 → ℝ),
      CalcValue (LinearRbfKernel.EvaluateValue {}) !![(0 : ℝ), 1] w x =
        CalcValue (LinearRbfKernel.EvaluateValue {}) !![(0 : ℝ), 1] w x) ∧
    (∀ (k₁ k₂ : GaussianRbfKernel) (r₁ r₂ : ℝ), k₁.m_theta = k₂.m_theta → r₁ = r₂ →
      k₁.EvaluateValue r₁ = k₂.EvaluateValue r₂) ∧
    (∀ (k₁ k₂ : InverseQuadraticRbfKernel) (r₁ r₂ : ℝ), k₁.m_theta = k₂.m_theta → r₁ = r₂ →
      k₁.EvaluateValue r₁ = k₂.EvaluateValue r₂) :=
  claim_c8 _ _ _ _ _ _ false (1 / 1000) rfl rfl rfl

/-- Claim C4: `CalcWeights` reports success/failure; on a singular Gram matrix
with no regularization requested, the failure is surfaced (result `false`) and
the interpolator remains in the `DataLoaded` state with its data intact — it does
not move to `Fitted` with meaningless weights. -/
theorem claim_c4 {d : ℕ} (φ : ℝ → ℝ) (data : DataSet d) (lambda : ℝ)
    (h : (gramMatrix φ data.X).det = 0) :
    CalcWeightsOp φ (InterpState.dataLoaded data) false lambda =
      (false, InterpState.dataLoaded data) := by
  have hvec : CalcWeightsVec φ data.X data.y false lambda = none := by
    simp [CalcWeightsVec, h]
  simp [CalcWeightsOp, hvec]

/-- Witness for claim C4: two duplicate points at the origin under the Gaussian
kernel give the singular Gram matrix of all ones; the fit reports failure and the
state stays `DataLoaded`. -/
theorem claim_c4_witness :
    (gramMatrix (GaussianRbfKernel.EvaluateValue ⟨1⟩)
      (Matrix.of fun _ _ => (0 : ℝ) : Matrix (Fin 1) (Fin 2) ℝ)).det = 0 ∧
    CalcWeightsOp (GaussianRbfKernel.EvaluateValue ⟨1⟩)
        (InterpState.dataLoaded ⟨2, (Matrix.of fun _ _ => (0 : ℝ) : Matrix (Fin 1) (Fin 2) ℝ), ![1, 2]⟩)
        false (1 / 1000) =
      (false, InterpState.dataLoaded
        ⟨2, (Matrix.of fun _ _ => (0 : ℝ) : Matrix (Fin 1) (Fin 2) ℝ), ![1, 2]⟩) := by
  have h : (gramMatrix (GaussianRbfKernel.EvaluateValue ⟨1⟩)
      (Matrix.of fun _ _ => (0 : ℝ) : Matrix (Fin 1) (Fin 2) ℝ)).det = 0 := by
    rw [Matrix.det_fin_two]
    simp [gramMatrix, CalcRbfValue, point, euclidNorm, GaussianRbfKernel.EvaluateValue]
  exact ⟨h, claim_c4 _ _ _ h⟩

theorem residualSumOfSquares_eq_dot {d n : ℕ} (φ : ℝ → ℝ) (X : Matrix (Fin d) (Fin n) ℝ)
    (y w : Fin n → ℝ) :
    residualSumOfSquares φ X y w =
      (gramMatrix φ X *ᵥ w - y) ⬝ᵥ (gramMatrix φ X *ᵥ w - y) := by
  unfold residualSumOfSquares Matrix.dotProduct
  refine Finset.sum_congr rfl fun i _ => ?_
  rw [CalcValue_at_point]
  simp [Pi.sub_apply, pow_two]

theorem mulVec_inv_cancel {n : ℕ} (A : Matrix (Fin n) (Fin n) ℝ) (h : A.det ≠ 0)
    (y : Fin n → ℝ) : A *ᵥ (A⁻¹ *ᵥ y) = y := by
  rw [Matrix.mulVec_mulVec, Matrix.mul_nonsing_inv _ (isUnit_iff_ne_zero.2 h),
    Matrix.one_mulVec]

theorem inv_mulVec_cancel {n : ℕ} (A : Matrix (Fin n) (Fin n) ℝ) (h : A.det ≠ 0)
    (z : Fin n → ℝ) : A⁻¹ *ᵥ (A *ᵥ z) = z := by
  rw [Matrix.mulVec_mulVec, Matrix.nonsing_inv_mul _ (isUnit_iff_ne_zero.2 h),
    Matrix.one_mulVec]

theorem ridge_residual {n : ℕ} (Phi : Matrix (Fin n) (Fin n) ℝ) (l : ℝ) (y : Fin n → ℝ)
    (h : (Phi + l • 1).det ≠ 0) :
    Phi *ᵥ ((Phi + l • 1)⁻¹ *ᵥ y) - y = -(l • ((Phi + l • 1)⁻¹ *ᵥ y)) := by
  set w := (Phi + l • 1)⁻¹ *ᵥ y with hw
  have hy : (Phi + l • 1) *ᵥ w = y := mulVec_inv_cancel _ h y
  calc Phi *ᵥ w - y = Phi *ᵥ w - (Phi + l • 1) *ᵥ w := by rw [hy]
    _ = -(l • w) := by
        rw [Matrix.add_mulVec, Matrix.smul_mulVec_assoc, Matrix.one_mulVec]
        abel

/-- Claim C6 (amended): for a fixed data set whose Gram matrix is positive
semidefinite (as for the Gaussian and inverse-quadratic kernels), with
`use_regularization = true` and both solves succeeding, the residual sum of
squares between fitted and observed values at the stored points is monotonically
non-decreasing in the regularization parameter: `0 ≤ λ₁ ≤ λ₂` implies
`RSS(λ₁) ≤ RSS(λ₂)`.  Without positive semidefiniteness the code violates the
claim (see the counterexample with the merely conditionally-positive-definite
linear kernel). -/
theorem claim_c6_amended {d n : ℕ} (φ : ℝ → ℝ) (X : Matrix (Fin d) (Fin n) ℝ)
    (y : Fin n → ℝ) (l₁ l₂ : ℝ) (w₁ w₂ : Fin n → ℝ)
    (hpsd : ∀ v : Fin n → ℝ, 0 ≤ v ⬝ᵥ (gramMatrix φ X *ᵥ v))
    (h0 : 0 ≤ l₁) (h12 : l₁ ≤ l₂)
    (h1 : CalcWeightsVec φ X y true l₁ = some w₁)
    (h2 : CalcWeightsVec φ X y true l₂ = some w₂) :
    residualSumOfSquares φ X y w₁ ≤ residualSumOfSquares φ X y w₂ := by
  obtain ⟨hA, hw₁⟩ := (CalcWeightsVec_true_iff φ X y l₁ w₁).1 h1
  obtain ⟨hB, hw₂⟩ := (CalcWeightsVec_true_iff φ X y l₂ w₂).1 h2
  rw [residualSumOfSquares_eq_dot, residualSumOfSquares_eq_dot]
  set Phi := gramMatrix φ X with hPhi
  set A := Phi + l₁ • (1 : Matrix (Fin n) (Fin n) ℝ) with hAdef
  set B := Phi + l₂ • (1 : Matrix (Fin n) (Fin n) ℝ) with hBdef
  have hr₁ : Phi *ᵥ w₁ - y = -(l₁ • w₁) := by rw [hw₁]; exact ridge_residual Phi l₁ y hA
  have hr₂ : Phi *ᵥ w₂ - y = -(l₂ • w₂) := by rw [hw₂]; exact ridge_residual Phi l₂ y hB
  rw [hr₁, hr₂]
  set v := A⁻¹ *ᵥ w₂ with hv
  have hAv : A *ᵥ v = w₂ := mulVec_inv_cancel A hA w₂
  have hyB : B *ᵥ w₂ = y := by rw [hw₂]; exact mulVec_inv_cancel B hB y
  have hAByv : A *ᵥ (B *ᵥ v) = y := by
    rw [Matrix.mulVec_mulVec, hAdef, hBdef, shifted_mul_comm, ← hAdef, ← hBdef,
      ← Matrix.mulVec_mulVec, hAv, hyB]
  have hBv : B *ᵥ v = w₁ := by
    calc B *ᵥ v = A⁻¹ *ᵥ (A *ᵥ (B *ᵥ v)) := (inv_mulVec_cancel A hA _).symm
      _ = A⁻¹ *ᵥ y := by rw [hAByv]
      _ = w₁ := hw₁.symm
  have hw₁v : w₁ = Phi *ᵥ v + l₂ • v := by
    rw [← hBv, hBdef, Matrix.add_mulVec, Matrix.smul_mulVec_assoc, Matrix.one_mulVec]
  have hw₂v : w₂ = Phi *ᵥ v + l₁ • v := by
    rw [← hAv, hAdef, Matrix.add_mulVec, Matrix.smul_mulVec_assoc, Matrix.one_mulVec]
  have expand : ∀ c : ℝ, (Phi *ᵥ v + c • v) ⬝ᵥ (Phi *ᵥ v + c • v) =
      (Phi *ᵥ v) ⬝ᵥ (Phi *ᵥ v) + 2 * c * ((Phi *ᵥ v) ⬝ᵥ v) + c ^ 2 * (v ⬝ᵥ v) := by
    intro c
    have hcomm : v ⬝ᵥ (Phi *ᵥ v) = (Phi *ᵥ v) ⬝ᵥ v := dotProduct_comm _ _
    simp only [dotProduct_add, add_dotProduct, smul_dotProduct, dotProduct_smul,
      smul_eq_mul, hcomm]
    ring
  simp only [neg_dotProduct, dotProduct_neg, neg_neg, smul_dotProduct, dotProduct_smul,
    smul_eq_mul]
  rw [hw₁v, hw₂v, expand l₂, expand l₁]
  have hP : 0 ≤ (Phi *ᵥ v) ⬝ᵥ (Phi *ᵥ v) := dotProduct_self_nonneg _
  have hQ : 0 ≤ (Phi *ᵥ v) ⬝ᵥ v := by rw [dotProduct_comm]; exact hpsd v
  have hR : 0 ≤ v ⬝ᵥ v := dotProduct_self_nonneg _
  have h2' : 0 ≤ l₂ := le_trans h0 h12
  nlinarith [mul_nonneg (mul_nonneg (sub_nonneg.2 h12) (by linarith : (0 : ℝ) ≤ l₂ + l₁)) hP,
    mul_nonneg (mul_nonneg (mul_nonneg h0 h2') (sub_nonneg.2 h12)) hQ]

/-- Witness for claim C6 (amended): a single Gaussian-kernel point at the origin;
the Gram matrix is the 1×1 identity (positive semidefinite), the ridge solves at
`λ = 0` and `λ = 1` both succeed, and the residual sum of squares is
non-decreasing from the first to the second. -/
theorem claim_c6_witness :
    CalcWeightsVec (GaussianRbfKernel.EvaluateValue ⟨1⟩)
        (Matrix.of fun _ _ => (0 : ℝ) : Matrix (Fin 1) (Fin 1) ℝ) (fun _ => 1) true 0 =
      some ((gramMatrix (GaussianRbfKernel.EvaluateValue ⟨1⟩)
          (Matrix.of fun _ _ => (0 : ℝ) : Matrix (Fin 1) (Fin 1) ℝ) +
        (0 : ℝ) • 1)⁻¹ *ᵥ fun _ => 1) ∧
    CalcWeightsVec (GaussianRbfKernel.EvaluateValue ⟨1⟩)
        (Matrix.of fun _ _ => (0 : ℝ) : Matrix (Fin 1) (Fin 1) ℝ) (fun _ => 1) true 1 =
      some ((gramMatrix (GaussianRbfKernel.EvaluateValue ⟨1⟩)
          (Matrix.of fun _ _ => (0 : ℝ) : Matrix (Fin 1) (Fin 1) ℝ) +
        (1 : ℝ) • 1)⁻¹ *ᵥ fun _ => 1) ∧
    residualSumOfSquares (GaussianRbfKernel.EvaluateValue ⟨1⟩)
        (Matrix.of fun _ _ => (0 : ℝ) : Matrix (Fin 1) (Fin 1) ℝ) (fun _ => 1)
        ((gramMatrix (GaussianRbfKernel.EvaluateValue ⟨1⟩)
            (Matrix.of fun _ _ => (0 : ℝ) : Matrix (Fin 1) (Fin 1) ℝ) +
          (0 : ℝ) • 1)⁻¹ *ᵥ fun _ => 1) ≤
      residualSumOfSquares (GaussianRbfKernel.EvaluateValue ⟨1⟩)
        (Matrix.of fun _ _ => (0 : ℝ) : Matrix (Fin 1) (Fin 1) ℝ) (fun _ => 1)
        ((gramMatrix (GaussianRbfKernel.EvaluateValue ⟨1⟩)
            (Matrix.of fun _ _ => (0 : ℝ) : Matrix (Fin 1) (Fin 1) ℝ) +
          (1 : ℝ) • 1)⁻¹ *ᵥ fun _ => 1) := by
  have hgram : ∀ i j, gramMatrix (GaussianRbfKernel.EvaluateValue ⟨1⟩)
      (Matrix.of fun _ _ => (0 : ℝ) : Matrix (Fin 1) (Fin 1) ℝ) i j = 1 := by
    intro i j
    simp [gramMatrix, CalcRbfValue, point, euclidNorm, GaussianRbfKernel.EvaluateValue]
  have hdetA : (gramMatrix (GaussianRbfKernel.EvaluateValue ⟨1⟩)
      (Matrix.of fun _ _ => (0 : ℝ) : Matrix (Fin 1) (Fin 1) ℝ) +
      (0 : ℝ) • (1 : Matrix (Fin 1) (Fin 1) ℝ)).det ≠ 0 := by
    rw [Matrix.det_fin_one]
    simp [hgram 0 0]
  have hdetB : (gramMatrix (GaussianRbfKernel.EvaluateValue ⟨1⟩)
      (Matrix.of fun _ _ => (0 : ℝ) : Matrix (Fin 1) (Fin 1) ℝ) +
      (1 : ℝ) • (1 : Matrix (Fin 1) (Fin 1) ℝ)).det ≠ 0 := by
    rw [Matrix.det_fin_one]
    simp [Matrix.add_apply, Matrix.smul_apply, Matrix.one_apply, hgram 0 0]
  have hpsd : ∀ v : Fin 1 → ℝ, 0 ≤ v ⬝ᵥ (gramMatrix (GaussianRbfKernel.EvaluateValue ⟨1⟩)
      (Matrix.of fun _ _ => (0 : ℝ) : Matrix (Fin 1) (Fin 1) ℝ) *ᵥ v) := by
    intro v
    simp only [Matrix.dotProduct, Matrix.mulVec, Fin.sum_univ_one, hgram 0 0, one_mul]
    exact mul_self_nonneg _
  have h1 := (CalcWeightsVec_true_iff (GaussianRbfKernel.EvaluateValue ⟨1⟩)
    (Matrix.of fun _ _ => (0 : ℝ) : Matrix (Fin 1) (Fin 1) ℝ) (fun _ => 1) 0 _).2 ⟨hdetA, rfl⟩
  have h2 := (CalcWeightsVec_true_iff (GaussianRbfKernel.EvaluateValue ⟨1⟩)
    (Matrix.of fun _ _ => (0 : ℝ) : Matrix (Fin 1) (Fin 1) ℝ) (fun _ => 1) 1 _).2 ⟨hdetB, rfl⟩
  exact ⟨h1, h2, claim_c6_amended _ _ _ 0 1 _ _ hpsd le_rfl zero_le_one h1 h2⟩

theorem euclidNorm_one_dim (v : Fin 1 → ℝ) : euclidNorm v = |v 0| := by
  simp [euclidNorm, Fin.sum_univ_one, Real.sqrt_sq_eq_abs]

theorem gram_lin_ce :
    gramMatrix (LinearRbfKernel.EvaluateValue {}) (!![(0 : ℝ), 1 / 100, 1]) =
      !![0, 1 / 100, 1; 1 / 100, 0, 99 / 100; 1, 99 / 100, 0] := by
  ext i j
  fin_cases i <;> fin_cases j <;>
    norm_num [gramMatrix, CalcRbfValue, point, euclidNorm_one_dim,
      LinearRbfKernel.EvaluateValue, Matrix.of_apply, Pi.sub_apply]

theorem ce_A1_eq :
    gramMatrix (LinearRbfKernel.EvaluateValue {}) (!![(0 : ℝ), 1 / 100, 1]) +
        (1 / 100 : ℝ) • (1 : Matrix (Fin 3) (Fin 3) ℝ) =
      !![1 / 100, 1 / 100, 1; 1 / 100, 1 / 100, 99 / 100; 1, 99 / 100, 1 / 100] := by
  rw [gram_lin_ce]
  ext i j
  fin_cases i <;> fin_cases j <;>
    norm_num [Matrix.add_apply, Matrix.smul_apply, Matrix.one_apply, Fin.ext_iff]

theorem ce_A2_eq :
    gramMatrix (LinearRbfKernel.EvaluateValue {}) (!![(0 : ℝ), 1 / 100, 1]) +
        (1 / 10 : ℝ) • (1 : Matrix (Fin 3) (Fin 3) ℝ) =
      !![1 / 10, 1 / 100, 1; 1 / 100, 1 / 10, 99 / 100; 1, 99 / 100, 1 / 10] := by
  rw [gram_lin_ce]
  ext i j
  fin_cases i <;> fin_cases j <;>
    norm_num [Matrix.add_apply, Matrix.smul_apply, Matrix.one_apply, Fin.ext_iff]

theorem ce_A1_inv :
    (gramMatrix (LinearRbfKernel.EvaluateValue {}) (!![(0 : ℝ), 1 / 100, 1]) +
        (1 / 100 : ℝ) • (1 : Matrix (Fin 3) (Fin 3) ℝ))⁻¹ =
      !![980000, -989900, 100; -989900, 999900, -100; 100, -100, 0] := by
  apply Matrix.inv_eq_right_inv
  rw [ce_A1_eq]
  ext i j
  fin_cases i <;> fin_cases j <;>
    norm_num [Matrix.mul_apply, Fin.sum_univ_three, Matrix.one_apply, Fin.ext_iff]

theorem ce_A2_inv :
    (gramMatrix (LinearRbfKernel.EvaluateValue {}) (!![(0 : ℝ), 1 / 100, 1]) +
        (1 / 10 : ℝ) • (1 : Matrix (Fin 3) (Fin 3) ℝ))⁻¹ =
      !![48505 / 8861, -49450 / 8861, 4505 / 8861;
         -49450 / 8861, 49500 / 8861, 4450 / 8861;
         4505 / 8861, 4450 / 8861, -495 / 8861] := by
  apply Matrix.inv_eq_right_inv
  rw [ce_A2_eq]
  ext i j
  fin_cases i <;> fin_cases j <;>
    norm_num [Matrix.mul_apply, Fin.sum_univ_three, Matrix.one_apply, Fin.ext_iff]

theorem ce_det1_ne :
    (gramMatrix (LinearRbfKernel.EvaluateValue {}) (!![(0 : ℝ), 1 / 100, 1]) +
        (1 / 100 : ℝ) • (1 : Matrix (Fin 3) (Fin 3) ℝ)).det ≠ 0 := by
  rw [ce_A1_eq, Matrix.det_fin_three]
  norm_num

theorem ce_det2_ne :
    (gramMatrix (LinearRbfKernel.EvaluateValue {}) (!![(0 : ℝ), 1 / 100, 1]) +
        (1 / 10 : ℝ) • (1 : Matrix (Fin 3) (Fin 3) ℝ)).det ≠ 0 := by
  rw [ce_A2_eq, Matrix.det_fin_three]
  norm_num

theorem ce_w1 :
    (gramMatrix (LinearRbfKernel.EvaluateValue {}) (!![(0 : ℝ), 1 / 100, 1]) +
        (1 / 100 : ℝ) • (1 : Matrix (Fin 3) (Fin 3) ℝ))⁻¹ *ᵥ ![1, -1, 0] =
      ![(1969900 : ℝ), -1989800, 200] := by
  rw [ce_A1_inv]
  ext i
  fin_cases i <;> norm_num [Matrix.mulVec, Matrix.dotProduct, Fin.sum_univ_three]

theorem ce_w2 :
    (gramMatrix (LinearRbfKernel.EvaluateValue {}) (!![(0 : ℝ), 1 / 100, 1]) +
        (1 / 10 : ℝ) • (1 : Matrix (Fin 3) (Fin 3) ℝ))⁻¹ *ᵥ ![1, -1, 0] =
      ![(97955 / 8861 : ℝ), -98950 / 8861, 55 / 8861] := by
  rw [ce_A2_inv]
  ext i
  fin_cases i <;> norm_num [Matrix.mulVec, Matrix.dotProduct, Fin.sum_univ_three]

theorem ce_rss1 :
    residualSumOfSquares (LinearRbfKernel.EvaluateValue {}) (!![(0 : ℝ), 1 / 100, 1])
      ![1, -1, 0] ![(1969900 : ℝ), -1989800, 200] = 783981009 := by
  unfold residualSumOfSquares CalcValue
  norm_num [Fin.sum_univ_three, point, euclidNorm_one_dim, LinearRbfKernel.EvaluateValue,
    Pi.sub_apply, Matrix.of_apply]
  rw [show |(1 / 100 : ℝ)| = 1 / 100 from abs_of_nonneg (by norm_num),
    show |(99 / 100 : ℝ)| = 99 / 100 from abs_of_nonneg (by norm_num)]
  norm_num

theorem ce_rss2 :
    residualSumOfSquares (LinearRbfKernel.EvaluateValue {}) (!![(0 : ℝ), 1 / 100, 1])
      ![1, -1, 0] ![(97955 / 8861 : ℝ), -98950 / 8861, 55 / 8861] =
      387725751 / 157034642 := by
  unfold residualSumOfSquares CalcValue
  norm_num [Fin.sum_univ_three, point, euclidNorm_one_dim, LinearRbfKernel.EvaluateValue,
    Pi.sub_apply, Matrix.of_apply]
  rw [show |(1 / 100 : ℝ)| = 1 / 100 from abs_of_nonneg (by norm_num),
    show |(99 / 100 : ℝ)| = 99 / 100 from abs_of_nonneg (by norm_num)]
  norm_num

/-- Counterexample to claim C6: an ill-conditioned data set — three 1-D points
`0, 1/100, 1` with the nearly-duplicate pair `0, 1/100`, linear kernel, Gram
determinant `99/5000` (near-singular) — with targets `(1, -1, 0)`.  Both
regularized solves succeed, yet increasing the regularization parameter from
`λ = 1/100` to `λ = 1/10` strictly *decreases* the residual sum of squares
(from `783981009` to `387725751/157034642 ≈ 2.47`), refuting monotonic
non-decrease of the residual in `λ`. -/
theorem claim_c6_counterexample :
    (gramMatrix (LinearRbfKernel.EvaluateValue {}) (!![(0 : ℝ), 1 / 100, 1])).det =
      99 / 5000 ∧
    (1 / 100 : ℝ) ≤ 1 / 10 ∧
    CalcWeightsVec (LinearRbfKernel.EvaluateValue {}) (!![(0 : ℝ), 1 / 100, 1])
      ![1, -1, 0] true (1 / 100) = some ![(1969900 : ℝ), -1989800, 200] ∧
    CalcWeightsVec (LinearRbfKernel.EvaluateValue {}) (!![(0 : ℝ), 1 / 100, 1])
      ![1, -1, 0] true (1 / 10) = some ![(97955 / 8861 : ℝ), -98950 / 8861, 55 / 8861] ∧
    residualSumOfSquares (LinearRbfKernel.EvaluateValue {}) (!![(0 : ℝ), 1 / 100, 1])
        ![1, -1, 0] ![(97955 / 8861 : ℝ), -98950 / 8861, 55 / 8861] <
      residualSumOfSquares (LinearRbfKernel.EvaluateValue {}) (!![(0 : ℝ), 1 / 100, 1])
        ![1, -1, 0] ![(1969900 : ℝ), -1989800, 200] := by
  refine ⟨?_, by norm_num, ?_, ?_, ?_⟩
  · rw [gram_lin_ce, Matrix.det_fin_three]
    norm_num
  · exact (CalcWeightsVec_true_iff _ _ _ _ _).2 ⟨ce_det1_ne, ce_w1.symm⟩
  · exact (CalcWeightsVec_true_iff _ _ _ _ _).2 ⟨ce_det2_ne, ce_w2.symm⟩
  · rw [ce_rss1, ce_rss2]
    norm_num
